import Mathlib

/-! ErrorChecker (include/utils/exceptions.hpp)

A shallow embedding of the static check routines of `class ErrorChecker`.

* `std::runtime_error` is represented by the message string it stores; a routine
  ends in a `Completion`: a normal return, a throw, or the death of the process.
* `std::cerr`, the calls issued to the CUDA runtime and the invocations of
  `print_stack_trace` are recorded in an explicit `World` that every routine
  threads through.
* `std::stringstream` is an accumulated `String`; `std::endl` appends `"\n"`.
* The external libraries (dedisp, CUDA runtime, execinfo) are parameters.
-/

namespace ErrorChecker

/-! ## Strings -/

/-- The character sequence `std::endl` inserts into a stream. -/
def endl : String := "\n"

/-- Containment of `phrase` in `msg` as a contiguous run of characters. -/
def Mentions (msg phrase : String) : Prop := phrase.data <:+: msg.data

instance (msg phrase : String) : Decidable (Mentions msg phrase) :=
  inferInstanceAs (Decidable (phrase.data <:+: msg.data))

/-- The NUL character that terminates a C string. -/
def NUL : Char := Char.ofNat 0

/-- Contents of the C string `s.c_str()` as read by a consumer of `const char*`:
the characters of `s` up to, and not including, the first NUL. -/
def c_str (s : String) : String := ⟨s.data.takeWhile (fun c => c != NUL)⟩

/-! ## Observable world -/

/-- Entry points of the CUDA runtime used by `check_cuda_error`. -/
inductive CudaCall where
  | cudaDeviceSynchronize
  | cudaGetLastError
  | cudaGetErrorString
  deriving DecidableEq, Repr

/-- Everything a check routine can observe or change besides its result.
`gpu` is the state of the CUDA runtime; `cudaCalls` and `stackTraces` are
histories: the runtime calls issued so far, and the `max_depth` argument of each
invocation of `print_stack_trace` so far. -/
structure World (σ : Type) where
  cerr : String
  gpu : σ
  cudaCalls : List CudaCall
  stackTraces : List Nat

/-- How a routine ends: `ok a` is a normal return of `a`, `error m` is
`throw std::runtime_error(m)`, and `killed` is the process dying on a signal
because the stack cannot hold the frame of the routine. -/
inductive Completion (α : Type) where
  | ok (a : α)
  | error (m : String)
  | killed

/-- Result of running a routine: how it ends, and the world it leaves. -/
abbrev Outcome (σ : Type) (α : Type) := Completion α × World σ

/-! ## Constants of the C library headers

The values are those of `<cstdlib>` and of `<cerrno>` on Linux; the headers are
not part of the repository. -/

/-- Value of `EXIT_SUCCESS` in `<cstdlib>`. -/
def EXIT_SUCCESS : Int := 0
/-- Value of `EXIT_FAILURE` in `<cstdlib>`. -/
def EXIT_FAILURE : Int := 1
/-- Value of `EPERM` in `<cerrno>`. -/
def EPERM : Int := 1
/-- Value of `EAGAIN` in `<cerrno>`. -/
def EAGAIN : Int := 11
/-- Value of `EINVAL` in `<cerrno>`. -/
def EINVAL : Int := 22

/-! ## check_pthread_create_error -/

/-- The routine returns a status and has no `throw`; the `switch` has no
`default`, so an unlisted code leaves `error_message` at the function name. -/
def check_pthread_create_error {σ : Type} (pthread_return_value : Int)
    (function_name : String) (w : World σ) : Outcome σ Int :=
  if pthread_return_value = EXIT_SUCCESS then (.ok EXIT_SUCCESS, w)
  else
    let error_message : String := ""
    let error_message := error_message ++ function_name ++ " "
    let error_message :=
      if pthread_return_value = EAGAIN then
        error_message ++ ("The system lacked the necessary resources to create another thread, "
          ++ "or the system-imposed limit on the total number of threads "
          ++ "in a process PTHREAD_THREADS_MAX would be exceeded.")
      else if pthread_return_value = EINVAL then
        error_message ++ "the attr value to pthread_create is invalid. "
      else if pthread_return_value = EPERM then
        error_message ++ ("The caller does not have appropriate permission to set "
          ++ "the required scheduling parameters or scheduling policy.")
      else error_message
    (.ok EXIT_FAILURE,
      { w with cerr := w.cerr ++ " Pthread failed with error no:" ++ toString pthread_return_value
                  ++ " and error message: " ++ error_message ++ endl })

/-! ## check_dedisp_error -/

/-- The `dedisp_error` enumeration of `dedisp.h`, as its integer value. -/
abbrev dedisp_error := Int

/-- First enumerator of `dedisp_error`. -/
def DEDISP_NO_ERROR : dedisp_error := 0

/-- The routine takes `dedisp_get_error_string` of the dedisp library as a
parameter; it yields the contents of the C string the library returns. -/
def check_dedisp_error {σ : Type} (dedisp_get_error_string : dedisp_error → String)
    (error : dedisp_error) (function_name : String) (w : World σ) : Outcome σ Unit :=
  if error ≠ DEDISP_NO_ERROR then
    let error_msg : String := ""
    let error_msg := error_msg ++ function_name ++ " failed with DEDISP error: "
      ++ dedisp_get_error_string error ++ endl
    (.error error_msg, w)
  else (.ok (), w)

/-! ## check_file_error -/

/-- The bitmask type `std::ios_base::iostate`: its elements are `failbit`,
`badbit` and `eofbit`; `rdstate() & bit` is the corresponding field. -/
structure iostate where
  failbit : Bool
  badbit : Bool
  eofbit : Bool
  deriving DecidableEq, Repr

/-- The empty mask `std::ios_base::goodbit`. -/
def goodbit : iostate := ⟨false, false, false⟩

/-- What the check reads of a `std::ifstream`. -/
structure ifstream where
  rdstate : iostate

/-- What the check reads of a `std::ofstream`. -/
structure ofstream where
  rdstate : iostate

/-- The member `good()`: `rdstate() == goodbit`. -/
def ifstream.good (s : ifstream) : Bool := s.rdstate == goodbit

/-- The member `good()`: `rdstate() == goodbit`. -/
def ofstream.good (s : ofstream) : Bool := s.rdstate == goodbit

/-- The overload `check_file_error(std::ifstream&, std::string)`. -/
def check_file_error {σ : Type} (infile : ifstream) (filename : String)
    (w : World σ) : Outcome σ Unit :=
  if !infile.good then
    let error_msg : String := ""
    let error_msg := error_msg ++ "File " ++ filename ++ " could not be opened: "
    let error_msg :=
      if infile.rdstate.failbit then error_msg ++ "Logical error on i/o operation" ++ endl
      else error_msg
    let error_msg :=
      if infile.rdstate.badbit then error_msg ++ "Read/writing error on i/o operation" ++ endl
      else error_msg
    let error_msg :=
      if infile.rdstate.eofbit then error_msg ++ "End-of-File reached on input operation" ++ endl
      else error_msg
    (.error error_msg, w)
  else (.ok (), w)

/-- The overload `check_file_error(std::ofstream&, std::string)`. -/
def check_file_error_ofstream {σ : Type} (infile : ofstream) (filename : String)
    (w : World σ) : Outcome σ Unit :=
  if !infile.good then
    let error_msg : String := ""
    let error_msg := error_msg ++ "File " ++ filename ++ " could not be opened: "
    let error_msg :=
      if infile.rdstate.failbit then error_msg ++ "Logical error on i/o operation" ++ endl
      else error_msg
    let error_msg :=
      if infile.rdstate.badbit then error_msg ++ "Read/writing error on i/o operation" ++ endl
      else error_msg
    let error_msg :=
      if infile.rdstate.eofbit then error_msg ++ "End-of-File reached on input operation" ++ endl
      else error_msg
    (.error error_msg, w)
  else (.ok (), w)

/-! ## check_cuda_error -/

/-- The `cudaError_t` enumeration of the CUDA runtime, as its integer value. -/
abbrev cudaError_t := Int

/-- First enumerator of `cudaError_t`. -/
def cudaSuccess : cudaError_t := 0

/-- The part of the CUDA runtime the check uses, over a runtime state `σ`.
`cudaDeviceSynchronize` and `cudaGetLastError` return an error code and the
state they leave behind. -/
structure CudaRuntime (σ : Type) where
  cudaDeviceSynchronize : σ → cudaError_t × σ
  cudaGetLastError : σ → cudaError_t × σ
  cudaGetErrorString : cudaError_t → String

/-- The result of `cudaDeviceSynchronize()` is discarded; `error` is what
`cudaGetLastError()` returns afterwards. -/
def check_cuda_error {σ : Type} (rt : CudaRuntime σ) (msg : String) (w : World σ) :
    Outcome σ Unit :=
  let w := { w with gpu := (rt.cudaDeviceSynchronize w.gpu).2,
                    cudaCalls := w.cudaCalls ++ [CudaCall.cudaDeviceSynchronize] }
  let error := (rt.cudaGetLastError w.gpu).1
  let w := { w with gpu := (rt.cudaGetLastError w.gpu).2,
                    cudaCalls := w.cudaCalls ++ [CudaCall.cudaGetLastError] }
  if error ≠ cudaSuccess then
    let error_msg : String := ""
    let error_msg := error_msg ++ "CUDA failed with error: "
      ++ rt.cudaGetErrorString error ++ endl
      ++ "Additional: " ++ msg ++ endl
    (.error error_msg, { w with cudaCalls := w.cudaCalls ++ [CudaCall.cudaGetErrorString] })
  else (.ok (), w)

/-- The call `check_cuda_error()` with the default argument of the declaration. -/
def check_cuda_error_default {σ : Type} (rt : CudaRuntime σ) (w : World σ) : Outcome σ Unit :=
  check_cuda_error rt "Unspecified location" w

/-! ## throw_error -/

/-- The exception is constructed from `msg.c_str()`. -/
def throw_error {σ : Type} (msg : String) (w : World σ) : Outcome σ Unit :=
  (.error (c_str msg), w)

/-! ## print_stack_trace -/

/-- The outcome of `<execinfo.h>` at the point of the call: the return addresses
the unwinder finds (innermost first; possibly none), the description
`backtrace_symbols` gives an address, and whether its allocation fails. -/
structure Execinfo where
  callStack : List Nat
  symbolOf : Nat → String
  symbolsFail : Bool

/-- Bytes of one `void*` on the 64-bit hosts the CUDA toolkit supports. -/
def sizeof_pointer : Nat := 8

/-- Size of the stack segment a process gets by default on Linux: 8 MiB. No
call has more room than this; an array larger than it never fits. -/
def default_stack : Nat := 8388608

/-- The value an argument has in an `unsigned int` parameter. -/
def as_unsigned (n : Nat) : Nat := n % 2 ^ 32

/-- The implicit conversion of an `unsigned int` argument to an `int` parameter:
values from 2^31 on wrap to negative ones. -/
def as_int (n : Nat) : Int :=
  if as_unsigned n < 2 ^ 31 then (as_unsigned n : Int) else (as_unsigned n : Int) - 2 ^ 32

/-- The call `backtrace(buffer, size)` with its `int size`: at most `size`
addresses are stored, and none when `size` is not positive. -/
def backtrace (e : Execinfo) (size : Int) : List Nat :=
  if size ≤ 0 then [] else e.callStack.take size.toNat

/-- The call `backtrace_symbols(buffer, n)`: `NULL`, or one string per address. -/
def backtrace_symbols (e : Execinfo) (buffer : List Nat) : Option (List String) :=
  if e.symbolsFail then none else some (buffer.map e.symbolOf)

/-- The routine places `void *buffer[max_depth]` in its own stack frame: `room`
is the number of bytes of stack left for that array at the call (by default a
whole stack segment), and the process is killed when the array does not fit.
The `unsigned int` depth is converted to the `int size` of `backtrace`. The loop
reads `strings[jj]` for `jj` below `trace_depth`, the number of addresses
`backtrace` stored. `free(strings)` has no effect on the world. -/
def print_stack_trace {σ : Type} (e : Execinfo) (max_depth : Nat) (w : World σ)
    (room : optParam Nat default_stack) : Outcome σ Unit :=
  let w := { w with stackTraces := w.stackTraces ++ [max_depth] }
  if room < sizeof_pointer * as_unsigned max_depth then (.killed, w)
  else
    let buffer := backtrace e (as_int max_depth)
    let trace_depth := buffer.length
    match backtrace_symbols e buffer with
    | none => (.ok (), { w with cerr := w.cerr ++ "Stack trace failed" ++ endl })
    | some strings =>
      (.ok (), { w with cerr := (List.range trace_depth).foldl
                          (fun out jj => out ++ strings.getD jj "" ++ endl) w.cerr })

/-! ## check_cufft_error -/

/-- The `cufftResult` enumeration of `cufft.h`, as its integer value. The
enumerators below have the values that header gives them; the header is not part
of the repository. -/
abbrev cufftResult := Int

def CUFFT_SUCCESS : cufftResult := 0
def CUFFT_INVALID_PLAN : cufftResult := 1
def CUFFT_ALLOC_FAILED : cufftResult := 2
def CUFFT_INVALID_TYPE : cufftResult := 3
def CUFFT_INVALID_VALUE : cufftResult := 4
def CUFFT_INTERNAL_ERROR : cufftResult := 5
def CUFFT_EXEC_FAILED : cufftResult := 6
def CUFFT_SETUP_FAILED : cufftResult := 7
def CUFFT_INVALID_SIZE : cufftResult := 8
def CUFFT_UNALIGNED_DATA : cufftResult := 9

/-- The `switch` is the chain of comparisons with its `default` last; the stack
trace is printed after the text is composed and before the `throw`. -/
def check_cufft_error {σ : Type} (e : Execinfo) (error : cufftResult) (w : World σ) :
    Outcome σ Unit :=
  if error ≠ CUFFT_SUCCESS then
    let error_msg : String := ""
    let error_msg := error_msg ++ "cuFFT failed with error: "
    let error_msg :=
      if error = CUFFT_INVALID_PLAN then error_msg ++ "CUFFT_INVALID_PLAN"
      else if error = CUFFT_ALLOC_FAILED then error_msg ++ "CUFFT_ALLOC_FAILED"
      else if error = CUFFT_INVALID_TYPE then error_msg ++ "CUFFT_INVALID_TYPE"
      else if error = CUFFT_INVALID_VALUE then error_msg ++ "CUFFT_INVALID_VALUE"
      else if error = CUFFT_INTERNAL_ERROR then error_msg ++ "CUFFT_INTERNAL_ERROR"
      else if error = CUFFT_EXEC_FAILED then error_msg ++ "CUFFT_EXEC_FAILED"
      else if error = CUFFT_SETUP_FAILED then error_msg ++ "CUFFT_SETUP_FAILED"
      else if error = CUFFT_INVALID_SIZE then error_msg ++ "CUFFT_INVALID_SIZE"
      else if error = CUFFT_UNALIGNED_DATA then error_msg ++ "CUFFT_UNALIGNED_DATA"
      else error_msg ++ "<unknown>"
    let error_msg := error_msg ++ endl
    match print_stack_trace e 200 w with
    | (.killed, w) => (.killed, w)
    | (.error ex, w) => (.error ex, w)
    | (.ok _, w) => (.error error_msg, w)
  else (.ok (), w)


/-! ## Vocabulary of the statements -/

/-- The three stream conditions the file check reports. -/
inductive Cause where
  | logical
  | readWrite
  | endOfFile
  deriving DecidableEq, Repr

/-- The text the file check writes for a condition. -/
def Cause.phrase : Cause → String
  | .logical => "Logical error on i/o operation"
  | .readWrite => "Read/writing error on i/o operation"
  | .endOfFile => "End-of-File reached on input operation"

/-- Whether the condition is set in a stream state. -/
def Cause.isSet : Cause → iostate → Bool
  | .logical, st => st.failbit
  | .readWrite, st => st.badbit
  | .endOfFile, st => st.eofbit

/-- The cause lines of a stream state, in the order the check writes them. -/
def causeLines (st : iostate) : String :=
  (if st.failbit then Cause.logical.phrase ++ endl else "")
    ++ ((if st.badbit then Cause.readWrite.phrase ++ endl else "")
    ++ (if st.eofbit then Cause.endOfFile.phrase ++ endl else ""))

/-- The text of a list of lines: each entry followed by the line end, in order. -/
def linesText : List String → String
  | [] => ""
  | s :: rest => s ++ endl ++ linesText rest

/-- A world with an empty diagnostic stream and empty histories. -/
def emptyWorld : World Unit := ⟨"", (), [], []⟩

/-- A call stack of two frames whose symbols resolve. -/
def twoFrames : Execinfo :=
  ⟨[0, 1], fun a => if a = 0 then "check_cufft_error" else "main", false⟩

/-- The nine failure codes the switch names, each with its name. -/
def namedCufftCodes : List (cufftResult × String) :=
  [(CUFFT_INVALID_PLAN, "CUFFT_INVALID_PLAN"), (CUFFT_ALLOC_FAILED, "CUFFT_ALLOC_FAILED"),
   (CUFFT_INVALID_TYPE, "CUFFT_INVALID_TYPE"), (CUFFT_INVALID_VALUE, "CUFFT_INVALID_VALUE"),
   (CUFFT_INTERNAL_ERROR, "CUFFT_INTERNAL_ERROR"), (CUFFT_EXEC_FAILED, "CUFFT_EXEC_FAILED"),
   (CUFFT_SETUP_FAILED, "CUFFT_SETUP_FAILED"), (CUFFT_INVALID_SIZE, "CUFFT_INVALID_SIZE"),
   (CUFFT_UNALIGNED_DATA, "CUFFT_UNALIGNED_DATA")]

/-- The error state `check_cuda_error` reads: what `cudaGetLastError` reports once
`cudaDeviceSynchronize` has run. -/
def stickyError {σ : Type} (rt : CudaRuntime σ) (gpu : σ) : cudaError_t :=
  (rt.cudaGetLastError (rt.cudaDeviceSynchronize gpu).2).1

/-- A CUDA runtime whose state is the sticky error itself: synchronizing leaves
it, querying returns and clears it. -/
def stickyRuntime : CudaRuntime cudaError_t :=
  ⟨fun s => (s, s), fun s => (s, cudaSuccess),
    fun c => if c = 2 then "out of memory" else "unspecified launch failure"⟩

/-- The line feed character, the one character of `endl`. -/
def LF : Char := Char.ofNat 10

/-- The cause text of a thread-creation return code: the resource-exhaustion text
for EAGAIN, the invalid-attribute text for EINVAL, the insufficient-permission
text for EPERM, and no text for any other code. -/
def pthreadCauseText (c : Int) : String :=
  if c = EAGAIN then
    "The system lacked the necessary resources to create another thread, "
      ++ "or the system-imposed limit on the total number of threads "
      ++ "in a process PTHREAD_THREADS_MAX would be exceeded."
  else if c = EINVAL then "the attr value to pthread_create is invalid. "
  else if c = EPERM then
    "The caller does not have appropriate permission to set "
      ++ "the required scheduling parameters or scheduling policy."
  else ""

/-- The conditions set in a stream state, in the fixed order logical error,
read/write error, end-of-file. -/
def causesOf (st : iostate) : List Cause :=
  [Cause.logical, Cause.readWrite, Cause.endOfFile].filter (fun c => c.isSet st)

/-! ## Lemmas on containment -/

theorem infix_append_split {α : Type} {P A B : List α} (h : P <:+: A ++ B) :
    P <:+: A ∨ P <:+: B ∨
      ∃ P1 P2, P = P1 ++ P2 ∧ P1 ≠ [] ∧ P2 ≠ [] ∧ P1 <:+ A ∧ P2 <+: B := by
  obtain ⟨s, t, h⟩ := h
  rcases List.append_eq_append_iff.mp h with ⟨a', hA, _⟩ | ⟨c', hsP, hB⟩
  · exact Or.inl ⟨s, a', hA.symm⟩
  · rcases List.append_eq_append_iff.mp hsP with ⟨a', hA, hP⟩ | ⟨c'', _, hc⟩
    · by_cases h1 : a' = []
      · subst h1
        refine Or.inr (Or.inl ⟨[], t, ?_⟩)
        simp at hP
        simp [hB, hP]
      · by_cases h2 : c' = []
        · subst h2
          refine Or.inl ⟨s, [], ?_⟩
          simp at hP
          simp [hA, hP]
        · exact Or.inr (Or.inr ⟨a', c', hP, h1, h2, ⟨s, hA.symm⟩, ⟨t, hB.symm⟩⟩)
    · refine Or.inr (Or.inl ⟨c'', t, ?_⟩)
      rw [hB, hc]

/-- A phrase that cannot straddle either seam of `F ++ N ++ T` occurs in it
exactly when it occurs in `N` or in `T`. -/
theorem infix_framed_iff {α : Type} (P F N T : List α)
    (h1 : ¬ P <:+: F)
    (h2 : ∀ P1 ∈ P.inits, P1 ≠ [] → ¬ P1 <:+ F)
    (h3 : ∀ P2 ∈ P.tails, P2 ≠ [] → P2 ≠ P → ¬ P2 <+: T) :
    P <:+: F ++ (N ++ T) ↔ P <:+: N ∨ P <:+: T := by
  constructor
  · intro h
    rcases infix_append_split h with hF | hNT | ⟨P1, P2, hP, hP1, _, hsuf, _⟩
    · exact absurd hF h1
    · rcases infix_append_split hNT with hN | hT | ⟨P1, P2, hP, hP1, hP2, _, hpre⟩
      · exact Or.inl hN
      · exact Or.inr hT
      · exfalso
        refine h3 P2 ?_ hP2 ?_ hpre
        · rw [List.mem_tails]; exact ⟨P1, hP.symm⟩
        · intro hEq
          have hlen := congrArg List.length hP
          rw [← hEq, List.length_append] at hlen
          exact hP1 (List.length_eq_zero.mp (by omega))
    · exfalso
      refine h2 P1 ?_ hP1 hsuf
      rw [List.mem_inits]; exact ⟨P2, hP.symm⟩
  · rintro (hN | hT)
    · obtain ⟨s, t, h⟩ := hN
      exact ⟨F ++ s, t ++ T, by simp [← h]⟩
    · obtain ⟨s, t, h⟩ := hT
      exact ⟨F ++ (N ++ s), t, by simp [← h]⟩

theorem Mentions.append_left {a p : String} (b : String) (h : Mentions a p) :
    Mentions (a ++ b) p := by
  obtain ⟨s, t, h⟩ := h
  exact ⟨s, t ++ b.data, by simp [String.data_append, ← h]⟩

theorem Mentions.append_right {b p : String} (a : String) (h : Mentions b p) :
    Mentions (a ++ b) p := by
  obtain ⟨s, t, h⟩ := h
  exact ⟨a.data ++ s, t, by simp [String.data_append, ← h]⟩

theorem Mentions.self (p : String) : Mentions p p := List.infix_refl _

/-! ## check_file_error -/

/-- Both overloads compose `"File " ++ filename ++ " could not be opened: "`
followed by the cause lines of the state, and throw it, when the state is not good. -/
theorem check_file_error_shape {σ : Type} (st : iostate) (filename : String) (w : World σ)
    (h : st ≠ goodbit) :
    check_file_error ⟨st⟩ filename w
        = (.error ("File " ++ (filename ++ (" could not be opened: " ++ causeLines st))), w)
      ∧ check_file_error_ofstream ⟨st⟩ filename w
        = (.error ("File " ++ (filename ++ (" could not be opened: " ++ causeLines st))), w) := by
  rcases st with ⟨_ | _, _ | _, _ | _⟩ <;>
    first
    | exact absurd rfl h
    | (constructor <;>
        simp [check_file_error, check_file_error_ofstream, ifstream.good, ofstream.good,
          goodbit, causeLines, Cause.phrase, String.ext_iff, String.data_append, List.append_assoc])


theorem phrase_not_in_lead (c : Cause) : ¬ c.phrase.data <:+: "File ".data := by
  cases c <;> decide

theorem phrase_not_across_lead (c : Cause) :
    ∀ P1 ∈ c.phrase.data.inits, P1 ≠ [] → ¬ P1 <:+ "File ".data := by
  cases c <;> decide

theorem phrase_not_across_tail (c : Cause) (st : iostate) :
    ∀ P2 ∈ c.phrase.data.tails, P2 ≠ [] → P2 ≠ c.phrase.data →
      ¬ P2 <+: (" could not be opened: " ++ causeLines st).data := by
  rcases st with ⟨_ | _, _ | _, _ | _⟩ <;> cases c <;> decide

theorem tail_mentions_iff (c : Cause) (st : iostate) :
    Mentions (" could not be opened: " ++ causeLines st) c.phrase ↔ c.isSet st = true := by
  rcases st with ⟨_ | _, _ | _, _ | _⟩ <;> cases c <;> decide

/-- The composed text mentions a cause phrase exactly when the condition is set
or the file name itself carries the phrase. -/
theorem file_message_mentions_iff (c : Cause) (st : iostate) (filename : String) :
    Mentions ("File " ++ (filename ++ (" could not be opened: " ++ causeLines st))) c.phrase
      ↔ (c.isSet st = true ∨ Mentions filename c.phrase) := by
  unfold Mentions
  rw [String.data_append, String.data_append,
    infix_framed_iff _ _ _ _ (phrase_not_in_lead c) (phrase_not_across_lead c)
      (phrase_not_across_tail c st)]
  have := tail_mentions_iff c st
  unfold Mentions at this
  rw [this]
  exact Or.comm

/-- C1 (as amended): for every stream state with at least one of failbit, badbit,
eofbit set and every file name, each overload of `check_file_error` throws a
message that contains the file name and that contains a cause phrase exactly when
its condition is set or the file name itself contains that phrase. -/
theorem check_file_error_mentions {σ : Type} (st : iostate) (filename : String) (w : World σ)
    (h : st.failbit = true ∨ st.badbit = true ∨ st.eofbit = true) :
    (∃ m, check_file_error ⟨st⟩ filename w = (.error m, w) ∧ Mentions m filename ∧
        ∀ c : Cause, Mentions m c.phrase ↔ (c.isSet st = true ∨ Mentions filename c.phrase))
    ∧ (∃ m, check_file_error_ofstream ⟨st⟩ filename w = (.error m, w) ∧ Mentions m filename ∧
        ∀ c : Cause, Mentions m c.phrase ↔ (c.isSet st = true ∨ Mentions filename c.phrase)) := by
  have hne : st ≠ goodbit := by
    rintro rfl
    simp [goodbit] at h
  obtain ⟨h1, h2⟩ := check_file_error_shape st filename w hne
  have hname : Mentions ("File " ++ (filename ++ (" could not be opened: " ++ causeLines st)))
      filename :=
    Mentions.append_right _ (Mentions.append_left _ (Mentions.self _))
  exact ⟨⟨_, h1, hname, fun c => file_message_mentions_iff c st filename⟩,
    ⟨_, h2, hname, fun c => file_message_mentions_iff c st filename⟩⟩

/-- C1 (witness): end-of-file alone with file name "run.dat" throws a message that
contains "run.dat" and the end-of-file phrase and neither of the other two phrases. -/
theorem check_file_error_mentions_witness :
    ((⟨false, false, true⟩ : iostate).failbit = true ∨ (⟨false, false, true⟩ : iostate).badbit = true
        ∨ (⟨false, false, true⟩ : iostate).eofbit = true)
    ∧ ∃ m, check_file_error ⟨⟨false, false, true⟩⟩ "run.dat" emptyWorld = (.error m, emptyWorld)
        ∧ Mentions m "run.dat" ∧ Mentions m Cause.endOfFile.phrase
        ∧ ¬ Mentions m Cause.logical.phrase ∧ ¬ Mentions m Cause.readWrite.phrase := by
  refine ⟨Or.inr (Or.inr rfl), ?_⟩
  obtain ⟨m, hm, hname, hc⟩ :=
    (check_file_error_mentions ⟨false, false, true⟩ "run.dat" emptyWorld (Or.inr (Or.inr rfl))).1
  refine ⟨m, hm, hname, (hc .endOfFile).mpr (Or.inl rfl), ?_, ?_⟩
  · rw [hc .logical]
    decide
  · rw [hc .readWrite]
    decide

/-- C1 (counterexample): with end-of-file alone set and a file name that spells the
logical-error phrase, the thrown message contains the phrase of a condition that
is clear. -/
theorem check_file_error_mentions_clear_cause :
    check_file_error ⟨⟨false, false, true⟩⟩ "Logical error on i/o operation" emptyWorld
        = (.error ("File Logical error on i/o operation could not be opened: "
            ++ "End-of-File reached on input operation\n"), emptyWorld)
    ∧ Cause.logical.isSet ⟨false, false, true⟩ = false
    ∧ Mentions ("File Logical error on i/o operation could not be opened: "
            ++ "End-of-File reached on input operation\n") Cause.logical.phrase := by
  refine ⟨rfl, rfl, ?_⟩
  decide


/-! ## check_cufft_error: classification -/

theorem print_stack_trace_returns {σ : Type} (e : Execinfo) (w : World σ) :
    (print_stack_trace e 200 w).1 = .ok () := by
  have hfit : ¬ default_stack < sizeof_pointer * as_unsigned 200 := by decide
  simp only [print_stack_trace, if_neg hfit]
  split <;> rfl

/-- On a failure code the FFT check throws its composed text after the stack
trace has run. -/
theorem check_cufft_error_throws {σ : Type} (e : Execinfo) (error : cufftResult) (w : World σ)
    (name : String) (h0 : error ≠ CUFFT_SUCCESS)
    (hname : (if error = CUFFT_INVALID_PLAN then "CUFFT_INVALID_PLAN"
      else if error = CUFFT_ALLOC_FAILED then "CUFFT_ALLOC_FAILED"
      else if error = CUFFT_INVALID_TYPE then "CUFFT_INVALID_TYPE"
      else if error = CUFFT_INVALID_VALUE then "CUFFT_INVALID_VALUE"
      else if error = CUFFT_INTERNAL_ERROR then "CUFFT_INTERNAL_ERROR"
      else if error = CUFFT_EXEC_FAILED then "CUFFT_EXEC_FAILED"
      else if error = CUFFT_SETUP_FAILED then "CUFFT_SETUP_FAILED"
      else if error = CUFFT_INVALID_SIZE then "CUFFT_INVALID_SIZE"
      else if error = CUFFT_UNALIGNED_DATA then "CUFFT_UNALIGNED_DATA"
      else "<unknown>") = name) :
    check_cufft_error e error w
      = (.error ("cuFFT failed with error: " ++ name ++ endl), (print_stack_trace e 200 w).2) := by
  have hret : print_stack_trace e 200 w = (.ok (), (print_stack_trace e 200 w).2) :=
    Prod.ext (print_stack_trace_returns e w) rfl
  generalize (print_stack_trace e 200 w).2 = w2 at hret ⊢
  subst hname
  simp only [check_cufft_error, if_pos h0, hret, String.empty_append]
  clear hret
  by_cases h1 : error = CUFFT_INVALID_PLAN
  · simp only [if_pos h1]
  simp only [if_neg h1]
  by_cases h2 : error = CUFFT_ALLOC_FAILED
  · simp only [if_pos h2]
  simp only [if_neg h2]
  by_cases h3 : error = CUFFT_INVALID_TYPE
  · simp only [if_pos h3]
  simp only [if_neg h3]
  by_cases h4 : error = CUFFT_INVALID_VALUE
  · simp only [if_pos h4]
  simp only [if_neg h4]
  by_cases h5 : error = CUFFT_INTERNAL_ERROR
  · simp only [if_pos h5]
  simp only [if_neg h5]
  by_cases h6 : error = CUFFT_EXEC_FAILED
  · simp only [if_pos h6]
  simp only [if_neg h6]
  by_cases h7 : error = CUFFT_SETUP_FAILED
  · simp only [if_pos h7]
  simp only [if_neg h7]
  by_cases h8 : error = CUFFT_INVALID_SIZE
  · simp only [if_pos h8]
  simp only [if_neg h8]
  by_cases h9 : error = CUFFT_UNALIGNED_DATA
  · simp only [if_pos h9]
  simp only [if_neg h9]


/-- C2: each of the nine named failure codes throws "cuFFT failed with error: "
followed by its own name (and the line end), the nine codes and the nine names
are pairwise distinct, and every other non-success code throws that text with the
name "<unknown>". -/
theorem check_cufft_error_classifies {σ : Type} (e : Execinfo) (w : World σ) :
    (∀ p ∈ namedCufftCodes,
        (check_cufft_error e p.1 w).1 = .error ("cuFFT failed with error: " ++ p.2 ++ endl))
    ∧ (namedCufftCodes.map Prod.fst).Nodup
    ∧ (namedCufftCodes.map Prod.snd).Nodup
    ∧ ∀ error : cufftResult, error ≠ CUFFT_SUCCESS → error ∉ namedCufftCodes.map Prod.fst →
        (check_cufft_error e error w).1
          = .error ("cuFFT failed with error: " ++ "<unknown>" ++ endl) := by
  refine ⟨?_, by decide, by decide, ?_⟩
  · intro p hp
    simp only [namedCufftCodes, List.mem_cons, List.mem_singleton, List.not_mem_nil,
      or_false] at hp
    rcases hp with rfl | rfl | rfl | rfl | rfl | rfl | rfl | rfl | rfl <;>
      exact congrArg Prod.fst (check_cufft_error_throws e _ w _ (by decide) rfl)
  · intro error h0 hn
    simp only [namedCufftCodes, List.map_cons, List.map_nil, List.mem_cons, List.mem_singleton,
      List.not_mem_nil, or_false, not_or] at hn
    obtain ⟨h1, h2, h3, h4, h5, h6, h7, h8, h9⟩ := hn
    refine congrArg Prod.fst (check_cufft_error_throws e error w _ h0 ?_)
    simp only [if_neg h1, if_neg h2, if_neg h3, if_neg h4, if_neg h5, if_neg h6, if_neg h7,
      if_neg h8, if_neg h9]

/-- C2 (witness): code 10, which the switch does not name, throws the fallback text. -/
theorem check_cufft_error_classifies_witness :
    (10 : cufftResult) ≠ CUFFT_SUCCESS ∧ (10 : cufftResult) ∉ namedCufftCodes.map Prod.fst
    ∧ (check_cufft_error twoFrames 10 emptyWorld).1
        = .error ("cuFFT failed with error: " ++ "<unknown>" ++ endl) :=
  ⟨by decide, by decide,
    (check_cufft_error_classifies twoFrames emptyWorld).2.2.2 10 (by decide) (by decide)⟩

/-! ## check_pthread_create_error -/

/-- C3: the thread-creation check never throws; on return code 0 it returns
EXIT_SUCCESS, and on EAGAIN, EINVAL or EPERM it returns EXIT_FAILURE after
appending to the diagnostic stream a line that carries the code, the function
name and a non-empty cause text. -/
theorem check_pthread_create_error_status {σ : Type} (pthread_return_value : Int)
    (function_name : String) (w : World σ) :
    (∃ status, (check_pthread_create_error pthread_return_value function_name w).1 = .ok status)
    ∧ (pthread_return_value = 0 →
        (check_pthread_create_error pthread_return_value function_name w).1 = .ok EXIT_SUCCESS)
    ∧ (pthread_return_value = EAGAIN ∨ pthread_return_value = EINVAL
          ∨ pthread_return_value = EPERM →
        (check_pthread_create_error pthread_return_value function_name w).1 = .ok EXIT_FAILURE
        ∧ ∃ cause, cause ≠ "" ∧
          (check_pthread_create_error pthread_return_value function_name w).2.cerr
            = w.cerr ++ (" Pthread failed with error no:" ++ toString pthread_return_value
                ++ " and error message: " ++ function_name ++ " " ++ cause ++ endl)) := by
  refine ⟨?_, ?_, ?_⟩
  · by_cases h : pthread_return_value = EXIT_SUCCESS
    · exact ⟨EXIT_SUCCESS, by simp only [check_pthread_create_error, if_pos h]⟩
    · exact ⟨EXIT_FAILURE, by simp only [check_pthread_create_error, if_neg h]⟩
  · rintro rfl
    rfl
  · rintro (rfl | rfl | rfl)
    · refine ⟨rfl, "The system lacked the necessary resources to create another thread, "
          ++ "or the system-imposed limit on the total number of threads "
          ++ "in a process PTHREAD_THREADS_MAX would be exceeded.", by decide, ?_⟩
      simp [check_pthread_create_error, EAGAIN, EXIT_SUCCESS, String.append_assoc]
    · refine ⟨rfl, "the attr value to pthread_create is invalid. ", by decide, ?_⟩
      simp [check_pthread_create_error, EAGAIN, EINVAL, EXIT_SUCCESS, String.append_assoc]
    · refine ⟨rfl, "The caller does not have appropriate permission to set "
          ++ "the required scheduling parameters or scheduling policy.", by decide, ?_⟩
      simp [check_pthread_create_error, EAGAIN, EINVAL, EPERM, EXIT_SUCCESS,
        String.append_assoc]


/-- C3 (witness): EAGAIN reported from "launch" returns EXIT_FAILURE and writes a line. -/
theorem check_pthread_create_error_status_witness :
    (EAGAIN = EAGAIN ∨ EAGAIN = EINVAL ∨ EAGAIN = EPERM)
    ∧ (check_pthread_create_error EAGAIN "launch" emptyWorld).1 = .ok EXIT_FAILURE
    ∧ ∃ cause, cause ≠ "" ∧
        (check_pthread_create_error EAGAIN "launch" emptyWorld).2.cerr
          = emptyWorld.cerr ++ (" Pthread failed with error no:" ++ toString EAGAIN
              ++ " and error message: " ++ "launch" ++ " " ++ cause ++ endl) :=
  ⟨Or.inl rfl,
    (check_pthread_create_error_status EAGAIN "launch" emptyWorld).2.2 (Or.inl rfl)⟩

/-! ## Success values -/

/-- C4: on the success value of its subsystem every check returns normally, leaves
the diagnostic stream as it was and does not invoke the stack trace capturer. -/
theorem success_has_no_effect {σ : Type} (w : World σ) (name : String)
    (dedisp_get_error_string : dedisp_error → String) (rt : CudaRuntime σ) (e : Execinfo) :
    check_pthread_create_error 0 name w = (.ok EXIT_SUCCESS, w)
    ∧ check_dedisp_error dedisp_get_error_string DEDISP_NO_ERROR name w = (.ok (), w)
    ∧ (∀ infile : ifstream, infile.good = true → check_file_error infile name w = (.ok (), w))
    ∧ (∀ outfile : ofstream, outfile.good = true →
        check_file_error_ofstream outfile name w = (.ok (), w))
    ∧ (stickyError rt w.gpu = cudaSuccess →
        (check_cuda_error rt name w).1 = .ok ()
        ∧ (check_cuda_error rt name w).2.cerr = w.cerr
        ∧ (check_cuda_error rt name w).2.stackTraces = w.stackTraces)
    ∧ check_cufft_error e CUFFT_SUCCESS w = (.ok (), w) := by
  refine ⟨rfl, rfl, ?_, ?_, ?_, rfl⟩
  · intro infile h
    simp [check_file_error, h]
  · intro outfile h
    simp [check_file_error_ofstream, h]
  · intro h
    unfold stickyError at h
    simp [check_cuda_error, h]

/-- C4 (witness): good streams and a clear sticky error. -/
theorem success_has_no_effect_witness :
    (ifstream.mk goodbit).good = true ∧ (ofstream.mk goodbit).good = true
    ∧ stickyError stickyRuntime (World.mk "" cudaSuccess [] []).gpu = cudaSuccess
    ∧ check_file_error ⟨goodbit⟩ "run.dat" (World.mk "" cudaSuccess [] [])
        = (.ok (), World.mk "" cudaSuccess [] [])
    ∧ check_file_error_ofstream ⟨goodbit⟩ "run.dat" (World.mk "" cudaSuccess [] [])
        = (.ok (), World.mk "" cudaSuccess [] [])
    ∧ (check_cuda_error stickyRuntime "run.dat" (World.mk "" cudaSuccess [] [])).1 = .ok ()
    ∧ (check_cuda_error stickyRuntime "run.dat" (World.mk "" cudaSuccess [] [])).2.cerr = ""
    ∧ (check_cuda_error stickyRuntime "run.dat" (World.mk "" cudaSuccess [] [])).2.stackTraces
        = [] :=
  have h := success_has_no_effect (World.mk "" cudaSuccess [] []) "run.dat"
    (fun _ => "") stickyRuntime twoFrames
  ⟨rfl, rfl, rfl, h.2.2.1 ⟨goodbit⟩ rfl, h.2.2.2.1 ⟨goodbit⟩ rfl, h.2.2.2.2.1 rfl⟩

/-! ## check_cuda_error -/

/-- C6: the dedispersion check throws exactly when the code differs from
DEDISP_NO_ERROR; the message it throws contains the operation label and the
library's error string for the code; the world, and with it the diagnostic
stream, is left as it was. -/
theorem check_dedisp_error_raises {σ : Type} (dedisp_get_error_string : dedisp_error → String)
    (error : dedisp_error) (function_name : String) (w : World σ) :
    ((∃ m, (check_dedisp_error dedisp_get_error_string error function_name w).1 = .error m)
        ↔ error ≠ DEDISP_NO_ERROR)
    ∧ (error ≠ DEDISP_NO_ERROR →
        ∃ m, (check_dedisp_error dedisp_get_error_string error function_name w).1 = .error m
          ∧ Mentions m function_name ∧ Mentions m (dedisp_get_error_string error))
    ∧ (check_dedisp_error dedisp_get_error_string error function_name w).2 = w := by
  by_cases h : error = DEDISP_NO_ERROR
  · subst h
    refine ⟨⟨?_, fun h => absurd rfl h⟩, fun h => absurd rfl h, rfl⟩
    rintro ⟨m, hm⟩
    simp [check_dedisp_error] at hm
  · have hm : (check_dedisp_error dedisp_get_error_string error function_name w)
        = (.error ("" ++ function_name ++ " failed with DEDISP error: "
            ++ dedisp_get_error_string error ++ endl), w) := by
      simp only [check_dedisp_error, if_pos h]
    refine ⟨⟨fun _ => h, fun _ => ⟨_, congrArg Prod.fst hm⟩⟩,
      fun _ => ⟨_, congrArg Prod.fst hm, ?_, ?_⟩, congrArg Prod.snd hm⟩
    · exact Mentions.append_left _ (Mentions.append_left _ (Mentions.append_left _
        (Mentions.append_right _ (Mentions.self _))))
    · exact Mentions.append_left _ (Mentions.append_right _ (Mentions.self _))

/-- C6 (witness): code 1 reported for "dedisp_create_plan". -/
theorem check_dedisp_error_raises_witness :
    (1 : dedisp_error) ≠ DEDISP_NO_ERROR
    ∧ ∃ m, (check_dedisp_error (fun _ => "Failed to allocate memory") 1
              "dedisp_create_plan" emptyWorld).1 = .error m
        ∧ Mentions m "dedisp_create_plan" ∧ Mentions m "Failed to allocate memory" :=
  ⟨by decide,
    (check_dedisp_error_raises (fun _ => "Failed to allocate memory") 1
      "dedisp_create_plan" emptyWorld).2.1 (by decide)⟩


/-- C8: the GPU-runtime check throws exactly when the sticky error it reads is not
cudaSuccess; the message it throws contains the runtime's error string for that
state and the caller's annotation, and the default marker "Unspecified location"
when the annotation is omitted. -/
theorem check_cuda_error_raises {σ : Type} (rt : CudaRuntime σ) (msg : String) (w : World σ) :
    ((∃ m, (check_cuda_error rt msg w).1 = .error m) ↔ stickyError rt w.gpu ≠ cudaSuccess)
    ∧ (stickyError rt w.gpu ≠ cudaSuccess →
        (∃ m, (check_cuda_error rt msg w).1 = .error m
          ∧ Mentions m (rt.cudaGetErrorString (stickyError rt w.gpu)) ∧ Mentions m msg)
        ∧ (∃ m, (check_cuda_error_default rt w).1 = .error m
          ∧ Mentions m (rt.cudaGetErrorString (stickyError rt w.gpu))
          ∧ Mentions m "Unspecified location")) := by
  have key : ∀ text : String, stickyError rt w.gpu ≠ cudaSuccess →
      (check_cuda_error rt text w).1
        = .error ("" ++ "CUDA failed with error: "
            ++ rt.cudaGetErrorString (stickyError rt w.gpu) ++ endl
            ++ "Additional: " ++ text ++ endl) := by
    intro text h
    unfold stickyError at h
    simp only [check_cuda_error, stickyError, if_pos h]
  have hstr : ∀ text : String, Mentions ("" ++ "CUDA failed with error: "
      ++ rt.cudaGetErrorString (stickyError rt w.gpu) ++ endl
      ++ "Additional: " ++ text ++ endl) (rt.cudaGetErrorString (stickyError rt w.gpu)) :=
    fun text => Mentions.append_left _ (Mentions.append_left _ (Mentions.append_left _
      (Mentions.append_left _ (Mentions.append_right _ (Mentions.self _)))))
  have htxt : ∀ text : String, Mentions ("" ++ "CUDA failed with error: "
      ++ rt.cudaGetErrorString (stickyError rt w.gpu) ++ endl
      ++ "Additional: " ++ text ++ endl) text :=
    fun text => Mentions.append_left _ (Mentions.append_right _ (Mentions.self _))
  refine ⟨⟨?_, fun h => ⟨_, key msg h⟩⟩, fun h =>
    ⟨⟨_, key msg h, hstr msg, htxt msg⟩, ⟨_, key _ h, hstr _, htxt _⟩⟩⟩
  rintro ⟨m, hm⟩ h
  unfold stickyError at h
  simp [check_cuda_error, h] at hm

/-- C8 (witness): a pending out-of-memory error, annotated "after dedisp". -/
theorem check_cuda_error_raises_witness :
    stickyError stickyRuntime (World.mk "" (2 : cudaError_t) [] []).gpu ≠ cudaSuccess
    ∧ (∃ m, (check_cuda_error stickyRuntime "after dedisp" (World.mk "" 2 [] [])).1 = .error m
        ∧ Mentions m "out of memory" ∧ Mentions m "after dedisp")
    ∧ (∃ m, (check_cuda_error_default stickyRuntime (World.mk "" 2 [] [])).1 = .error m
        ∧ Mentions m "out of memory" ∧ Mentions m "Unspecified location") :=
  ⟨by decide,
    (check_cuda_error_raises stickyRuntime "after dedisp" (World.mk "" 2 [] [])).2 (by decide)⟩

/-! ## throw_error -/

theorem takeWhile_not_mem {α : Type} (p : α → Bool) (a : α) (hp : p a = false) (l : List α) :
    a ∉ l.takeWhile p := by
  intro h
  have := List.mem_takeWhile_imp h
  simp [hp] at this

theorem takeWhile_split {α : Type} (p : α → Bool) (l : List α) :
    l.takeWhile p = l ∨ ∃ a rest, p a = false ∧ l = l.takeWhile p ++ a :: rest := by
  induction l with
  | nil => exact Or.inl rfl
  | cons x xs ih =>
    by_cases hx : p x = true
    · rcases ih with h | ⟨a, rest, ha, h⟩
      · exact Or.inl (by simp [List.takeWhile_cons, hx, h])
      · refine Or.inr ⟨a, rest, ha, ?_⟩
        simp only [List.takeWhile_cons, hx, if_true, List.cons_append]
        exact congrArg _ h
    · exact Or.inr ⟨x, xs, by simpa using hx, by simp [List.takeWhile_cons, hx]⟩

/-- C9 (as amended): `throw_error` throws for every message and never returns
normally; the message carried is the given one cut before its first NUL
character, and so is exactly the given message when that has no NUL character. -/
theorem throw_error_carries {σ : Type} (msg : String) (w : World σ) :
    ∃ m, throw_error msg w = (.error m, w)
      ∧ NUL ∉ m.data
      ∧ (m = msg ∨ ∃ rest, msg.data = m.data ++ NUL :: rest)
      ∧ (NUL ∉ msg.data → m = msg) := by
  have hnul : (fun c : Char => c != NUL) NUL = false := by simp
  refine ⟨c_str msg, rfl,
    takeWhile_not_mem (fun c : Char => c != NUL) NUL hnul msg.data, ?_, ?_⟩
  · rcases takeWhile_split (fun c : Char => c != NUL) msg.data with h | ⟨a, rest, ha, h⟩
    · exact Or.inl (String.ext h)
    · have : a = NUL := by simpa using ha
      subst this
      exact Or.inr ⟨rest, h⟩
  · intro hno
    rcases takeWhile_split (fun c : Char => c != NUL) msg.data with h | ⟨a, rest, ha, h⟩
    · exact String.ext h
    · have : a = NUL := by simpa using ha
      subst this
      exact absurd (h ▸ List.mem_append_right _ (List.mem_cons_self _ _)) hno

/-- C9 (witness): the empty message is carried as it is. -/
theorem throw_error_carries_witness :
    NUL ∉ "".data ∧ ∃ m, throw_error "" emptyWorld = (.error m, emptyWorld) ∧ m = "" := by
  obtain ⟨m, hm, _, _, h⟩ := throw_error_carries "" emptyWorld
  exact ⟨by decide, m, hm, h (by decide)⟩

/-- C9 (counterexample): a message with an embedded NUL character is not carried
whole: of the three characters a, NUL, b only the first arrives. -/
theorem throw_error_cuts_at_NUL :
    throw_error (String.mk ['a', NUL, 'b']) emptyWorld = (.error "a", emptyWorld)
    ∧ "a" ≠ String.mk ['a', NUL, 'b'] :=
  ⟨rfl, by decide⟩


/-! ## print_stack_trace -/

/-- The indexed loop over `strings` writes the entries in order, one per line. -/
theorem loop_writes_lines (pre strings : List String) (out : String) :
    (List.range' pre.length strings.length).foldl
        (fun out jj => out ++ (pre ++ strings).getD jj "" ++ endl) out
      = out ++ linesText strings := by
  induction strings generalizing pre out with
  | nil => simp [linesText]
  | cons s rest ih =>
    have hget : (pre ++ s :: rest).getD pre.length "" = s := by
      rw [List.getD_eq_getElem?_getD, List.getElem?_append_right (Nat.le_refl _)]
      simp
    have hstep := ih (pre ++ [s]) (out ++ s ++ endl)
    simp only [List.length_append, List.length_singleton, List.append_assoc,
      List.singleton_append] at hstep
    simp only [List.length_cons, List.range'_succ, List.foldl_cons, hget, linesText]
    rw [hstep]
    simp only [String.append_assoc]

theorem print_stack_trace_writes {σ : Type} (e : Execinfo) (max_depth : Nat) (w : World σ)
    (room : Nat) (hfit : sizeof_pointer * as_unsigned max_depth ≤ room) :
    print_stack_trace e max_depth w room
      = (.ok (), { w with
          cerr := w.cerr ++ (match backtrace_symbols e (backtrace e (as_int max_depth)) with
            | none => "Stack trace failed" ++ endl
            | some strings => linesText strings),
          stackTraces := w.stackTraces ++ [max_depth] }) := by
  simp only [print_stack_trace, if_neg (Nat.not_lt.mpr hfit)]
  cases hs : backtrace_symbols e (backtrace e (as_int max_depth)) with
  | none => simp [String.append_assoc]
  | some strings =>
    have hlen : (backtrace e (as_int max_depth)).length = strings.length := by
      unfold backtrace_symbols at hs
      split_ifs at hs
      simp only [Option.some.injEq] at hs
      rw [← hs, List.length_map]
    have := loop_writes_lines [] strings w.cerr
    simp only [List.length_nil, List.nil_append] at this
    simp only [hlen, List.range_eq_range', this]

/-- The one call site, with depth 200 and a whole stack segment. -/
theorem print_stack_trace_writes_200 {σ : Type} (e : Execinfo) (w : World σ) :
    print_stack_trace e 200 w
      = (.ok (), { w with
          cerr := w.cerr ++ (match backtrace_symbols e (backtrace e 200) with
            | none => "Stack trace failed" ++ endl
            | some strings => linesText strings),
          stackTraces := w.stackTraces ++ [200] }) := by
  have h := print_stack_trace_writes e 200 w default_stack (by decide)
  have h200 : as_int 200 = 200 := by decide
  rw [h200] at h
  exact h

/-- C7 (as amended): given CUFFT_ALLOC_FAILED the FFT check throws a message that
contains the name "CUFFT_ALLOC_FAILED"; the world at the throw is the one
`print_stack_trace` leaves, invoked once with maximum depth 200, which has
appended to the diagnostic stream either the resolution-failure notice or one
line per captured frame, a non-empty list whenever a frame was captured. -/
theorem check_cufft_error_alloc_failed {σ : Type} (e : Execinfo) (w : World σ) :
    ∃ m, check_cufft_error e CUFFT_ALLOC_FAILED w = (.error m, (print_stack_trace e 200 w).2)
      ∧ Mentions m "CUFFT_ALLOC_FAILED"
      ∧ (print_stack_trace e 200 w).2.stackTraces = w.stackTraces ++ [200]
      ∧ (backtrace_symbols e (backtrace e 200) = none →
          (print_stack_trace e 200 w).2.cerr = w.cerr ++ linesText ["Stack trace failed"])
      ∧ (backtrace_symbols e (backtrace e 200) ≠ none →
          (print_stack_trace e 200 w).2.cerr
              = w.cerr ++ linesText ((backtrace e 200).map e.symbolOf)
          ∧ (backtrace e 200 ≠ [] → (backtrace e 200).map e.symbolOf ≠ [])) := by
  refine ⟨_, check_cufft_error_throws e CUFFT_ALLOC_FAILED w "CUFFT_ALLOC_FAILED"
    (by decide) rfl, ?_, ?_, ?_, ?_⟩
  · exact Mentions.append_left _ (Mentions.append_right _ (Mentions.self _))
  · rw [print_stack_trace_writes_200]
  · intro h
    rw [print_stack_trace_writes_200]
    simp [h, linesText, String.append_assoc]
  · intro h
    have hs : backtrace_symbols e (backtrace e 200)
        = some ((backtrace e 200).map e.symbolOf) := by
      unfold backtrace_symbols at h ⊢
      split_ifs at h ⊢
      · exact absurd rfl h
      · rfl
    rw [print_stack_trace_writes_200]
    exact ⟨by simp [hs], fun hne => by simpa using hne⟩

/-- C7 (witness): with two resolvable frames on the stack the two frame lines are
on the diagnostic stream when CUFFT_ALLOC_FAILED is thrown. -/
theorem check_cufft_error_alloc_failed_witness :
    backtrace_symbols twoFrames (backtrace twoFrames 200) ≠ none
    ∧ backtrace twoFrames 200 ≠ []
    ∧ ∃ m, check_cufft_error twoFrames CUFFT_ALLOC_FAILED emptyWorld
          = (.error m, (print_stack_trace twoFrames 200 emptyWorld).2)
        ∧ Mentions m "CUFFT_ALLOC_FAILED"
        ∧ (print_stack_trace twoFrames 200 emptyWorld).2.stackTraces = [200]
        ∧ (print_stack_trace twoFrames 200 emptyWorld).2.cerr = "check_cufft_error\nmain\n"
        ∧ (backtrace twoFrames 200).map twoFrames.symbolOf ≠ [] := by
  obtain ⟨m, hm, hmen, hst, _, hsome⟩ := check_cufft_error_alloc_failed twoFrames emptyWorld
  have hs := hsome (by decide)
  exact ⟨by decide, by decide, m, hm, hmen, hst, hs.1.trans (by decide), hs.2 (by decide)⟩

/-- C7 (counterexample): when the capture returns no frame and symbol resolution
succeeds, CUFFT_ALLOC_FAILED is thrown after one invocation of the capturer with
depth 200 that has written nothing at all: neither a frame line nor the notice. -/
theorem check_cufft_error_empty_trace :
    (check_cufft_error ⟨[], fun _ => "main", false⟩ CUFFT_ALLOC_FAILED emptyWorld).1
        = .error "cuFFT failed with error: CUFFT_ALLOC_FAILED\n"
    ∧ (check_cufft_error ⟨[], fun _ => "main", false⟩ CUFFT_ALLOC_FAILED emptyWorld).2.stackTraces
        = [200]
    ∧ (check_cufft_error ⟨[], fun _ => "main", false⟩ CUFFT_ALLOC_FAILED emptyWorld).2.cerr = ""
    ∧ backtrace_symbols ⟨[], fun _ => "main", false⟩
        (backtrace ⟨[], fun _ => "main", false⟩ 200) = some [] :=
  ⟨rfl, rfl, rfl, rfl⟩


/-! ## check_pthread_create_error: the line written -/

theorem digitChar_ne_LF (k : Nat) (hk : k < 10) : Nat.digitChar k ≠ LF := by
  interval_cases k <;> decide

theorem toDigitsCore_no_LF (fuel n : Nat) (acc : List Char) (hacc : LF ∉ acc) :
    LF ∉ Nat.toDigitsCore 10 fuel n acc := by
  induction fuel generalizing n acc with
  | zero => simpa [Nat.toDigitsCore] using hacc
  | succ fuel ih =>
    have hd : LF ∉ Nat.digitChar (n % 10) :: acc := by
      intro h
      rcases List.mem_cons.mp h with h | h
      · exact digitChar_ne_LF (n % 10) (Nat.mod_lt _ (by decide)) h.symm
      · exact hacc h
    simp only [Nat.toDigitsCore]
    split_ifs
    · exact hd
    · exact ih _ _ hd

theorem nat_toString_no_LF (n : Nat) : LF ∉ (toString n).data := by
  show LF ∉ (Nat.repr n).data
  unfold Nat.repr Nat.toDigits
  exact toDigitsCore_no_LF _ _ _ (by simp)

/-- The decimal rendering of an `int` has no line feed. -/
theorem int_toString_no_LF (c : Int) : LF ∉ (toString c).data := by
  cases c with
  | ofNat m => exact nat_toString_no_LF m
  | negSucc m =>
    show LF ∉ ("-" ++ toString (m + 1)).data
    rw [String.data_append]
    intro h
    rcases List.mem_append.mp h with h | h
    · revert h
      decide
    · exact nat_toString_no_LF _ h

theorem pthreadCauseText_no_LF (c : Int) : LF ∉ (pthreadCauseText c).data := by
  unfold pthreadCauseText
  split_ifs <;> decide

/-- C11: for every non-zero return code and every function name the
thread-creation check returns EXIT_FAILURE after appending to the diagnostic
stream exactly one line, composed of the code in decimal, the function name and
the cause text of the code (and holding no line feed of its own when the function
name has none). The cause text is one of three distinct, non-empty texts for
EAGAIN, EINVAL and EPERM and is empty for every other code. -/
theorem check_pthread_create_error_line {σ : Type} (c : Int) (f : String) (w : World σ)
    (h : c ≠ 0) :
    (∃ line, check_pthread_create_error c f w
          = (.ok EXIT_FAILURE, { w with cerr := w.cerr ++ linesText [line] })
        ∧ line = " Pthread failed with error no:" ++ toString c ++ " and error message: "
            ++ f ++ " " ++ pthreadCauseText c
        ∧ (LF ∉ f.data → LF ∉ line.data))
    ∧ [pthreadCauseText EAGAIN, pthreadCauseText EINVAL, pthreadCauseText EPERM].Nodup
    ∧ "" ∉ [pthreadCauseText EAGAIN, pthreadCauseText EINVAL, pthreadCauseText EPERM]
    ∧ (c ≠ EAGAIN → c ≠ EINVAL → c ≠ EPERM → pthreadCauseText c = "") := by
  refine ⟨⟨_, ?_, rfl, ?_⟩, by decide, by decide, ?_⟩
  · have h0 : ¬ c = EXIT_SUCCESS := h
    simp only [check_pthread_create_error, if_neg h0, pthreadCauseText, linesText]
    by_cases h1 : c = EAGAIN
    · simp only [if_pos h1, String.append_assoc, String.empty_append, String.append_empty]
    simp only [if_neg h1]
    by_cases h2 : c = EINVAL
    · simp only [if_pos h2, String.append_assoc, String.empty_append, String.append_empty]
    simp only [if_neg h2]
    by_cases h3 : c = EPERM
    · simp only [if_pos h3, String.append_assoc, String.empty_append, String.append_empty]
    simp only [if_neg h3, String.append_assoc, String.empty_append, String.append_empty]
  · intro hf hin
    simp only [String.data_append, List.mem_append] at hin
    rcases hin with ((((hin | hin) | hin) | hin) | hin) | hin
    · revert hin
      decide
    · exact int_toString_no_LF c hin
    · revert hin
      decide
    · exact hf hin
    · revert hin
      decide
    · exact pthreadCauseText_no_LF c hin
  · intro h1 h2 h3
    simp only [pthreadCauseText, if_neg h1, if_neg h2, if_neg h3]

/-- C11 (witness): code 5, which the switch does not list, reported from "launch":
the line carries the code and the function name with an empty cause text, and
the status is EXIT_FAILURE. -/
theorem check_pthread_create_error_line_witness :
    (5 : Int) ≠ 0
    ∧ (5 : Int) ≠ EAGAIN ∧ (5 : Int) ≠ EINVAL ∧ (5 : Int) ≠ EPERM
    ∧ pthreadCauseText 5 = ""
    ∧ ∃ line, check_pthread_create_error 5 "launch" emptyWorld
          = (.ok EXIT_FAILURE, { emptyWorld with cerr := emptyWorld.cerr ++ linesText [line] })
        ∧ line = " Pthread failed with error no:5 and error message: launch " := by
  have hh := check_pthread_create_error_line 5 "launch" emptyWorld (by decide)
  obtain ⟨⟨line, hrun, hline, _⟩, _, _, hempty⟩ := hh
  exact ⟨by decide, by decide, by decide, by decide,
    hempty (by decide) (by decide) (by decide), line, hrun, hline.trans (by decide)⟩


/-! ## check_file_error: when it throws, and the two overloads -/

theorem endl_data : endl.data = [LF] := rfl

theorem causeLines_eq_linesText (st : iostate) :
    causeLines st = linesText ((causesOf st).map Cause.phrase) := by
  rcases st with ⟨_ | _, _ | _, _ | _⟩ <;> decide

theorem causesOf_ne_nil (st : iostate) (h : st ≠ goodbit) : causesOf st ≠ [] := by
  rcases st with ⟨_ | _, _ | _, _ | _⟩ <;> first | exact absurd rfl h | decide

theorem causeLines_ne_empty (st : iostate) (h : st ≠ goodbit) : causeLines st ≠ "" := by
  rcases st with ⟨_ | _, _ | _, _ | _⟩ <;> first | exact absurd rfl h | decide

theorem ne_goodbit_iff (st : iostate) :
    st ≠ goodbit ↔ (st.failbit = true ∨ st.badbit = true ∨ st.eofbit = true) := by
  rcases st with ⟨_ | _, _ | _, _ | _⟩ <;> decide

theorem append_ne_self (a b : String) (hb : b ≠ "") : a ++ b ≠ a := by
  intro h
  have hd := congrArg String.data h
  rw [String.data_append] at hd
  exact hb (String.ext (List.append_right_eq_self.mp hd))

/-- C12: each overload of `check_file_error` throws exactly when at least one of
failbit, badbit, eofbit is set; a message it throws is "File <name> could not be
opened: " followed by the lines of the conditions that are set, a non-empty
selection from logical error, read/write error, end-of-file in that order, and
so is never the bare lead-in. -/
theorem check_file_error_names_a_cause {σ : Type} (st : iostate) (filename : String)
    (w : World σ) :
    ((∃ m, (check_file_error ⟨st⟩ filename w).1 = .error m)
        ↔ (st.failbit = true ∨ st.badbit = true ∨ st.eofbit = true))
    ∧ ((∃ m, (check_file_error_ofstream ⟨st⟩ filename w).1 = .error m)
        ↔ (st.failbit = true ∨ st.badbit = true ∨ st.eofbit = true))
    ∧ (causesOf st).Sublist [Cause.logical, Cause.readWrite, Cause.endOfFile]
    ∧ ∀ m, ((check_file_error ⟨st⟩ filename w).1 = .error m
            ∨ (check_file_error_ofstream ⟨st⟩ filename w).1 = .error m) →
        causesOf st ≠ []
        ∧ m = "File " ++ filename ++ " could not be opened: "
              ++ linesText ((causesOf st).map Cause.phrase)
        ∧ m ≠ "File " ++ filename ++ " could not be opened: " := by
  by_cases hg : st = goodbit
  · subst hg
    refine ⟨⟨?_, ?_⟩, ⟨?_, ?_⟩, List.filter_sublist _, ?_⟩
    · rintro ⟨m, hm⟩
      simp [check_file_error, ifstream.good] at hm
    · intro h
      simp [goodbit] at h
    · rintro ⟨m, hm⟩
      simp [check_file_error_ofstream, ofstream.good] at hm
    · intro h
      simp [goodbit] at h
    · rintro m (hm | hm)
      · simp [check_file_error, ifstream.good] at hm
      · simp [check_file_error_ofstream, ofstream.good] at hm
  · obtain ⟨h1, h2⟩ := check_file_error_shape st filename w hg
    have hset := (ne_goodbit_iff st).mp hg
    refine ⟨⟨fun _ => hset, fun _ => ⟨_, congrArg Prod.fst h1⟩⟩,
      ⟨fun _ => hset, fun _ => ⟨_, congrArg Prod.fst h2⟩⟩, List.filter_sublist _, ?_⟩
    intro m hm
    have hm2 : m = "File " ++ (filename ++ (" could not be opened: " ++ causeLines st)) := by
      rcases hm with hm | hm
      · rw [h1] at hm
        exact (Completion.error.inj hm).symm
      · rw [h2] at hm
        exact (Completion.error.inj hm).symm
    refine ⟨causesOf_ne_nil st hg, ?_, ?_⟩
    · rw [hm2, causeLines_eq_linesText, String.append_assoc, String.append_assoc]
    · rw [hm2, ← String.append_assoc, ← String.append_assoc]
      exact append_ne_self _ _ (causeLines_ne_empty st hg)

/-- C12 (witness): failbit and eofbit set with file name "run.dat": the message
is the lead-in followed by the logical-error line and the end-of-file line. -/
theorem check_file_error_names_a_cause_witness :
    (check_file_error ⟨⟨true, false, true⟩⟩ "run.dat" emptyWorld).1
        = .error ("File run.dat could not be opened: Logical error on i/o operation\n"
            ++ "End-of-File reached on input operation\n")
    ∧ causesOf ⟨true, false, true⟩ = [Cause.logical, Cause.endOfFile]
    ∧ ("File run.dat could not be opened: Logical error on i/o operation\n"
            ++ "End-of-File reached on input operation\n")
        = "File " ++ "run.dat" ++ " could not be opened: "
              ++ linesText ((causesOf ⟨true, false, true⟩).map Cause.phrase)
    ∧ ("File run.dat could not be opened: Logical error on i/o operation\n"
            ++ "End-of-File reached on input operation\n")
        ≠ "File " ++ "run.dat" ++ " could not be opened: " :=
  have hrun : (check_file_error ⟨⟨true, false, true⟩⟩ "run.dat" emptyWorld).1
      = .error ("File run.dat could not be opened: Logical error on i/o operation\n"
          ++ "End-of-File reached on input operation\n") := rfl
  have h := (check_file_error_names_a_cause ⟨true, false, true⟩ "run.dat" emptyWorld).2.2.2
    _ (Or.inl hrun)
  ⟨hrun, by decide, h.2.1, h.2.2⟩

/-- C13: for every stream state and file name the input-stream and the
output-stream overload have the same outcome: both return normally or both
throw, and then the same message; with eofbit set the output-stream overload too
words the condition "End-of-File reached on input operation". -/
theorem check_file_error_overloads_agree {σ : Type} (st : iostate) (filename : String)
    (w : World σ) :
    check_file_error ⟨st⟩ filename w = check_file_error_ofstream ⟨st⟩ filename w
    ∧ ((check_file_error ⟨st⟩ filename w).1 = .ok ()
        ↔ (check_file_error_ofstream ⟨st⟩ filename w).1 = .ok ())
    ∧ (∀ m₁ m₂, (check_file_error ⟨st⟩ filename w).1 = .error m₁ →
        (check_file_error_ofstream ⟨st⟩ filename w).1 = .error m₂ → m₁ = m₂)
    ∧ (st.eofbit = true →
        ∃ m, (check_file_error_ofstream ⟨st⟩ filename w).1 = .error m
          ∧ Mentions m "End-of-File reached on input operation") := by
  have heq : check_file_error ⟨st⟩ filename w = check_file_error_ofstream ⟨st⟩ filename w := by
    by_cases hg : st = goodbit
    · subst hg
      rfl
    · obtain ⟨h1, h2⟩ := check_file_error_shape st filename w hg
      rw [h1, h2]
  refine ⟨heq, by rw [heq], ?_, ?_⟩
  · intro m₁ m₂ h₁ h₂
    rw [heq, h₂] at h₁
    exact (Completion.error.inj h₁).symm
  · intro he
    have hg : st ≠ goodbit := (ne_goodbit_iff st).mpr (Or.inr (Or.inr he))
    obtain ⟨_, h2⟩ := check_file_error_shape st filename w hg
    refine ⟨_, congrArg Prod.fst h2, ?_⟩
    exact (file_message_mentions_iff .endOfFile st filename).mpr (Or.inl he)

/-- C13 (witness): with eofbit alone and file name "out.fil" both overloads throw
the same message, worded for an input operation. -/
theorem check_file_error_overloads_agree_witness :
    (⟨false, false, true⟩ : iostate).eofbit = true
    ∧ check_file_error ⟨⟨false, false, true⟩⟩ "out.fil" emptyWorld
        = check_file_error_ofstream ⟨⟨false, false, true⟩⟩ "out.fil" emptyWorld
    ∧ ∃ m, (check_file_error_ofstream ⟨⟨false, false, true⟩⟩ "out.fil" emptyWorld).1 = .error m
        ∧ Mentions m "End-of-File reached on input operation" :=
  have h := check_file_error_overloads_agree ⟨false, false, true⟩ "out.fil" emptyWorld
  ⟨rfl, h.1, h.2.2.2 rfl⟩

end ErrorChecker
